import Mathlib

/-!
# VendNexus — formal model of the inventory/sales domain

Shallow embedding of the VendNexus vending-machine dashboard:
the catalog/ledger data model (`types.ts`, `constants.ts`), the checkout
transaction `handleCustomerPurchase` (`App.tsx`), the dashboard aggregates
(`Dashboard.tsx`), the expiry predicates (`Inventory.tsx`, `AIAssistant.tsx`),
the insight-context snapshot and the advisory-oracle adapters
(`geminiService.ts`), and the price-suggestion popup state machine
(`Inventory.tsx`).

Currency amounts (JS numbers used only through `+`, `-`, `*`) are modelled as
`Rat`; stock quantities and cart quantities as `Int` (`Math.max(0, _)` clamps);
epoch-millisecond timestamps as `Nat` for sale records and `Int` for expiry
comparisons.
-/

namespace VendNexus

/-- PaymentMethod enum from `types.ts`. -/
inductive PaymentMethod where
  | creditCard
  | upi
  | wallet
  | cash
  | qrCode
deriving DecidableEq

/-- Product record from `types.ts`; `expiryDate` is the optional
epoch-millis field the components read (`Inventory.tsx`, `AIAssistant.tsx`,
`constants.ts`), absent from the base interface. -/
structure Product where
  id : String
  name : String
  category : String
  price : Rat
  cost : Rat
  quantity : Int
  min_quantity : Int
  image : String
  machineId : String
  expiryDate : Option Int
deriving DecidableEq

/-- CartItem from `types.ts`: a Product snapshot plus `cartQuantity`. -/
structure CartItem extends Product where
  cartQuantity : Int
deriving DecidableEq

/-- SaleRecord from `types.ts`. -/
structure SaleRecord where
  id : String
  productId : String
  productName : String
  machineId : String
  quantity : Int
  revenue : Rat
  profit : Rat
  timestamp : Nat
  paymentMethod : PaymentMethod
deriving DecidableEq

/-- Sale-record id string built in `handleCustomerPurchase` (`App.tsx`):
the template literal `s-(timestamp)-(item.id)`. -/
def saleId (timestamp : Nat) (productId : String) : String :=
  "s-" ++ toString timestamp ++ "-" ++ productId

/-- One sale record per cart line, as pushed by `handleCustomerPurchase`
(`App.tsx`): price/cost/name are read from the cart item snapshot. -/
def mkSaleRecord (timestamp : Nat) (method : PaymentMethod) (item : CartItem) :
    SaleRecord where
  id := saleId timestamp item.id
  productId := item.id
  productName := item.name
  machineId := item.machineId
  quantity := item.cartQuantity
  revenue := item.price * (item.cartQuantity : Rat)
  profit := (item.price - item.cost) * (item.cartQuantity : Rat)
  timestamp := timestamp
  paymentMethod := method

/-- Sale records emitted by one checkout, in cart order
(the `cart.forEach` pushes in `App.tsx`). -/
def newSalesOf (timestamp : Nat) (method : PaymentMethod)
    (cart : List CartItem) : List SaleRecord :=
  cart.map (mkSaleRecord timestamp method)

/-- Inventory update for one cart line in `handleCustomerPurchase`
(`App.tsx`): `findIndex` locates the first product with the item id and it is
replaced by a copy whose quantity is `Math.max(0, quantity - cartQuantity)`;
a missing id (`findIndex` returning -1) leaves the catalog unchanged. -/
def decrementFirst (item : CartItem) : List Product → List Product
  | [] => []
  | p :: ps =>
    if p.id = item.id then
      { p with quantity := max 0 (p.quantity - item.cartQuantity) } :: ps
    else
      p :: decrementFirst item ps

/-- Catalog after processing every cart line in order (`cart.forEach`). -/
def applyCartToProducts (cart : List CartItem) (ps : List Product) :
    List Product :=
  cart.foldl (fun acc item => decrementFirst item acc) ps

/-- App-level mutable state: the catalog and the sales ledger
(`useState` pair in `App.tsx`). -/
structure AppState where
  products : List Product
  sales : List SaleRecord
deriving DecidableEq

/-- Checkout transaction `handleCustomerPurchase` (`App.tsx`): emits one sale
record per cart line (prepended to the ledger) and decrements inventory,
clamped at zero. `timestamp` stands for the single `Date.now()` read. -/
def handleCustomerPurchase (timestamp : Nat) (cart : List CartItem)
    (method : PaymentMethod) (st : AppState) : AppState where
  products := applyCartToProducts cart st.products
  sales := newSalesOf timestamp method cart ++ st.sales

/-- Parameters of one checkout interaction. -/
structure Checkout where
  timestamp : Nat
  cart : List CartItem
  method : PaymentMethod

/-- Sequential application of several checkouts. -/
def runCheckouts (st : AppState) : List Checkout → AppState
  | [] => st
  | c :: cs => runCheckouts (handleCustomerPurchase c.timestamp c.cart c.method st) cs

/-! ## Dashboard aggregates (`Dashboard.tsx`) -/

/-- Machine filter applied before aggregation (`Dashboard.tsx`):
`selectedMachineId === 'all'` keeps everything, otherwise sales are filtered
by `machineId`. -/
def filterSales (sel : String) (sales : List SaleRecord) : List SaleRecord :=
  if sel = "all" then sales else sales.filter (fun s => s.machineId == sel)

/-- Total revenue: `filteredSales.reduce((sum, s) => sum + s.revenue, 0)`. -/
def totalRevenue (sales : List SaleRecord) : Rat :=
  sales.foldl (fun acc s => acc + s.revenue) 0

/-- Total profit: `filteredSales.reduce((sum, s) => sum + s.profit, 0)`. -/
def totalProfit (sales : List SaleRecord) : Rat :=
  sales.foldl (fun acc s => acc + s.profit) 0

/-- Total units sold: `filteredSales.reduce((sum, s) => sum + s.quantity, 0)`. -/
def totalItemsSold (sales : List SaleRecord) : Int :=
  sales.foldl (fun acc s => acc + s.quantity) 0

/-- One step of the `salesByProduct` accumulation (`Dashboard.tsx`):
`map.set(s.productName, (map.get(s.productName) || 0) + s.revenue)` on a JS
`Map`, which updates an existing key in place (insertion order kept) and
appends a new key at the end. -/
def accumByName (m : List (String × Rat)) (s : SaleRecord) :
    List (String × Rat) :=
  if (m.map Prod.fst).contains s.productName then
    m.map (fun e => if e.1 = s.productName then (e.1, e.2 + s.revenue) else e)
  else
    m ++ [(s.productName, s.revenue)]

/-- Revenue grouped by product name (`Dashboard.tsx`): insertion-stable
accumulation of `revenue` into a name-to-total mapping. -/
def salesByProduct (sales : List SaleRecord) : List (String × Rat) :=
  sales.foldl accumByName []

/-- Total the mapping assigns to a name (0 when the name is absent); with the
unique keys `salesByProduct` maintains this is the single stored value. -/
def revenueFor (m : List (String × Rat)) (name : String) : Rat :=
  ((m.filter (fun e => e.1 = name)).map Prod.snd).sum

/-! ## Expiry predicates -/

/-- Seven days in milliseconds (`7 * 24 * 60 * 60 * 1000`). -/
def weekMs : Int := 7 * 24 * 60 * 60 * 1000

/-- Row predicate in `Inventory.tsx`:
`product.expiryDate && product.expiryDate < Date.now()`; the leading
conjunct is JS truthiness of the optional number. -/
def isExpired (now : Int) (p : Product) : Bool :=
  match p.expiryDate with
  | none => false
  | some d => d != 0 && decide (d < now)

/-- Row predicate in `Inventory.tsx`:
`product.expiryDate && product.expiryDate < Date.now() + 7*24*60*60*1000 &&
!isExpired` — note the strict upper bound. -/
def isNearExpiry (now : Int) (p : Product) : Bool :=
  match p.expiryDate with
  | none => false
  | some d => d != 0 && decide (d < now + weekMs) && !(isExpired now p)

/-- Filter for `expiredProducts` in `AIAssistant.tsx`:
`p.expiryDate && p.expiryDate < now`. -/
def expiredFilter (now : Int) (p : Product) : Bool :=
  match p.expiryDate with
  | none => false
  | some d => d != 0 && decide (d < now)

/-- Filter for `nearExpiryProducts` in `AIAssistant.tsx`:
`p.expiryDate && p.expiryDate >= now && p.expiryDate <= now + weekInMs` —
inclusive at both ends. -/
def nearExpiryFilter (now : Int) (p : Product) : Bool :=
  match p.expiryDate with
  | none => false
  | some d => d != 0 && decide (now ≤ d) && decide (d ≤ now + weekMs)

/-- Predicate written from the spec text, for comparison with the code
predicates: near-expiry means `now <= expiryDate <= now + 7 days`. -/
def specNearExpiry (now : Int) (p : Product) : Bool :=
  match p.expiryDate with
  | none => false
  | some d => decide (now ≤ d) && decide (d ≤ now + weekMs)

/-! ## Insight-context snapshot (`geminiService.ts`) -/

/-- Sales portion of the context handed to the oracle by
`generateBusinessInsight`: `contextData.sales.slice(0, 50)`. -/
def recentSalesSnapshot (sales : List SaleRecord) : List SaleRecord :=
  sales.take 50

/-- Insertion step ordering sale records by timestamp, newest first. -/
def insertByTsDesc (s : SaleRecord) : List SaleRecord → List SaleRecord
  | [] => [s]
  | t :: ts => if t.timestamp ≤ s.timestamp then s :: t :: ts
               else t :: insertByTsDesc s ts

/-- Insertion sort of sale records by timestamp, newest first. -/
def sortByTimestampDesc : List SaleRecord → List SaleRecord
  | [] => []
  | s :: ss => insertByTsDesc s (sortByTimestampDesc ss)

/-- Definition written from the spec words, for comparison with
`recentSalesSnapshot`: the `k` most recent sales ordered newest-first by
timestamp. -/
def specMostRecentSales (k : Nat) (sales : List SaleRecord) :
    List SaleRecord :=
  (sortByTimestampDesc sales).take k

/-! ## Advisory oracle adapters (`geminiService.ts`)

Each external call is modelled by a sum type covering its possible outcomes:
the call returns (with its payload, which may be missing or empty), or it
throws (network error or any other exception). The adapter bodies below are
the `try`/`catch` result-shaping of the source; a total Lean function from
outcomes captures that no outcome escapes the adapter. -/

/-- Outcome of the `generateContent` call inside `generateBusinessInsight`:
either a response whose `.text` may be absent, or a thrown error. -/
inductive OracleOutcome where
  | ok (text : Option String)
  | thrown
deriving DecidableEq

/-- Adapter `generateBusinessInsight` (`geminiService.ts`): returns
`response.text` when truthy, a fallback string when the text is missing or
empty, and an apology string from the `catch` branch when the call throws. -/
def generateBusinessInsight (outcome : OracleOutcome) : String :=
  match outcome with
  | .ok (some t) => if t = "" then "I couldn\x27t analyze the data at this moment." else t
  | .ok none => "I couldn\x27t analyze the data at this moment."
  | .thrown => "Sorry, I encountered an error analyzing your business data."

/-- Outcome of the TTS call inside `generateSpeechFromText`: a response whose
`inlineData` bytes may be absent, or a thrown error. -/
inductive TtsOutcome where
  | ok (audioData : Option (List Nat))
  | thrown
deriving DecidableEq

/-- Adapter `generateSpeechFromText` (`geminiService.ts`): yields the decoded
audio bytes when present, `null` (here `none`) when the payload is missing,
and `null` from the `catch` branch when the call throws. -/
def generateSpeechFromText : TtsOutcome → Option (List Nat)
  | .ok (some d) => some d
  | .ok none => none
  | .thrown => none

/-- Outcome of the `generateContent` call inside `chatWithAgent`: a response
with optional `.text` and optional grounding-chunk uris (each possibly
absent), or a thrown error. -/
inductive ChatOutcome where
  | ok (text : Option String) (grounding : Option (List (Option String)))
  | thrown
deriving DecidableEq

/-- Result shape of `chatWithAgent`: text plus optional audio. -/
structure ChatResult where
  text : String
  audio : Option (List Nat)
deriving DecidableEq

/-- Adapter `chatWithAgent` (`geminiService.ts`): on success returns the
response text (or a fallback when missing/empty) with grounding sources
appended when any non-empty uri exists, plus TTS audio; the `catch` branch
returns a fixed connection-trouble string with no audio. -/
def chatWithAgent (outcome : ChatOutcome) (tts : TtsOutcome) : ChatResult :=
  match outcome with
  | .thrown =>
    { text := "I\x27m having trouble connecting to the VendNexus network."
      audio := none }
  | .ok t? g? =>
    let responseText :=
      match t? with
      | some t => if t = "" then "I\x27m not sure how to respond to that." else t
      | none => "I\x27m not sure how to respond to that."
    let sources :=
      match g? with
      | none => ""
      | some chunks =>
        String.intercalate "\n" ((chunks.filterMap id).filter (fun u => u ≠ ""))
    let finalText :=
      if sources = "" then responseText
      else responseText ++ "\n\nSources:\n" ++ sources
    { text := finalText, audio := generateSpeechFromText tts }

/-- Outcome of the price-suggestion oracle call: a payload parsing to the
expected shape, a non-JSON or schema-mismatched payload, or a thrown error. -/
inductive PriceOracleOutcome where
  | wellFormed (suggestedPrice : Rat) (reasoning : String)
  | malformed
  | thrown
deriving DecidableEq

/-- Payload shape `{suggestedPrice, reasoning}` expected by the caller in
`Inventory.tsx`. -/
structure PriceSuggestionResult where
  suggestedPrice : Rat
  reasoning : String
deriving DecidableEq

/-- Modelled from the spec: the body of `suggestOptimalPrice` is not among the
source files (only its import and caller in `Inventory.tsx` are). Spec §4.5:
`getPriceSuggestion(product, salesWindow)` returns `{suggestedPrice,
reasoning}` or a failure value, rejecting payloads that do not parse to that
shape and never letting an external failure propagate; the caller treats a
null result as the failure value. -/
def suggestOptimalPrice : PriceOracleOutcome → Option PriceSuggestionResult
  | .wellFormed sp r => some ⟨sp, r⟩
  | .malformed => none
  | .thrown => none

/-! ## Price-suggestion popup state machine (`Inventory.tsx`) -/

/-- The `priceSuggestion` component state in `Inventory.tsx`. -/
structure PriceSuggestionState where
  isOpen : Bool
  product : Option Product
  suggestedPrice : Rat
  reasoning : String
  isLoading : Bool
deriving DecidableEq

/-- Initial `useState` value of the popup state. -/
def initialPriceSuggestion : PriceSuggestionState where
  isOpen := false
  product := none
  suggestedPrice := 0
  reasoning := ""
  isLoading := false

/-- Events driving the popup state: the three `setPriceSuggestion` calls in
`handleGetPriceSuggestion` and the close-button handler in the popup render. -/
inductive PsEvent where
  | requestSent (p : Product)
  | responseReceived (p : Product) (suggestedPrice : Rat) (reasoning : String)
  | errorReceived
  | dismiss

/-- Transition function collecting the `setPriceSuggestion` updates in
`Inventory.tsx`: request-sent opens the popup in loading state; a parsed
response stores price and reasoning with loading off; a null result keeps the
previous record, clears loading and sets the failure reasoning; the close
button only clears `isOpen`. -/
def psStep (s : PriceSuggestionState) : PsEvent → PriceSuggestionState
  | .requestSent p =>
    { isOpen := true, product := some p, suggestedPrice := 0,
      reasoning := "", isLoading := true }
  | .responseReceived p sp r =>
    { isOpen := true, product := some p, suggestedPrice := sp,
      reasoning := r, isLoading := false }
  | .errorReceived =>
    { s with isLoading := false, reasoning := "Failed to generate suggestion." }
  | .dismiss => { s with isOpen := false }

/-- Availability of the Apply Suggestion action: the popup render in
`Inventory.tsx` shows the apply button exactly when the popup is open and the
non-loading branch is taken. -/
def applyActionAvailable (s : PriceSuggestionState) : Bool :=
  s.isOpen && !s.isLoading

/-! ## Sample data

Concrete values used to evaluate the definitions at specific inputs. -/

/-- Sample catalog product (the seed data shape of `constants.ts`). -/
def sampleProduct : Product where
  id := "p1"
  name := "Sparkle Water"
  category := "Beverage"
  price := 5/2
  cost := 4/5
  quantity := 45
  min_quantity := 10
  image := ""
  machineId := "m1"
  expiryDate := none

/-- Sample cart line for `sampleProduct` with three units. -/
def sampleItem : CartItem where
  toProduct := sampleProduct
  cartQuantity := 3

/-- Cart line requesting five units of a product stocked at two. -/
def overItem : CartItem where
  id := "p2"
  name := "Energy Blast"
  category := "Beverage"
  price := 2
  cost := 1
  quantity := 2
  min_quantity := 1
  image := ""
  machineId := "m1"
  expiryDate := none
  cartQuantity := 5

/-- State holding only the product of `overItem`, stocked at two units. -/
def overState : AppState where
  products := [overItem.toProduct]
  sales := []

/-- Cart line whose product id appears in no catalog below. -/
def danglingItem : CartItem where
  id := "px"
  name := "Ghost Snack"
  category := "Snack"
  price := 3
  cost := 1
  quantity := 0
  min_quantity := 1
  image := ""
  machineId := "m1"
  expiryDate := none
  cartQuantity := 2

/-- State holding `sampleProduct` only (no product with id `px`). -/
def sampleState : AppState where
  products := [sampleProduct]
  sales := []

/-- Product whose expiry lies exactly seven days after instant 0. -/
def boundaryProduct : Product where
  id := "pb"
  name := "Boundary Bar"
  category := "Snack"
  price := 1
  cost := 1
  quantity := 1
  min_quantity := 1
  image := ""
  machineId := "m1"
  expiryDate := some weekMs

/-- Sale record with timestamp 1. -/
def oldSale : SaleRecord where
  id := "a"
  productId := "p1"
  productName := "Sparkle Water"
  machineId := "m1"
  quantity := 1
  revenue := 1
  profit := 1
  timestamp := 1
  paymentMethod := PaymentMethod.cash

/-- Sale record with timestamp 2. -/
def newSale : SaleRecord where
  id := "b"
  productId := "p1"
  productName := "Sparkle Water"
  machineId := "m1"
  quantity := 1
  revenue := 1
  profit := 1
  timestamp := 2
  paymentMethod := PaymentMethod.cash

/-! ## Decimal representation of timestamps

The sale-record id embeds `toString timestamp`. The lemmas below recover the
structure of that decimal string: it is non-empty, contains no dash, and
determines the timestamp, so `saleId` is injective in both arguments. -/

/-- Decimal digit characters of a natural number, most significant first. -/
def natDigitsChars (n : Nat) : List Char :=
  if _h : n < 10 then [Nat.digitChar n]
  else natDigitsChars (n / 10) ++ [Nat.digitChar (n % 10)]
termination_by n
decreasing_by
  exact Nat.div_lt_self (by omega) (by omega)

theorem natDigitsChars_of_lt (n : Nat) (h : n < 10) :
    natDigitsChars n = [Nat.digitChar n] := by
  rw [natDigitsChars]
  simp [h]

theorem natDigitsChars_of_ge (n : Nat) (h : ¬ n < 10) :
    natDigitsChars n = natDigitsChars (n / 10) ++ [Nat.digitChar (n % 10)] := by
  conv_lhs => rw [natDigitsChars]
  simp [h]

theorem toDigitsCore_eq_natDigitsChars :
    ∀ (fuel n : Nat) (acc : List Char), n < fuel →
      Nat.toDigitsCore 10 fuel n acc = natDigitsChars n ++ acc := by
  intro fuel
  induction fuel with
  | zero => intro n acc h; omega
  | succ f ih =>
    intro n acc h
    by_cases hd : n / 10 = 0
    · have hn : n < 10 := by omega
      have hm : n % 10 = n := Nat.mod_eq_of_lt hn
      simp [Nat.toDigitsCore, hd, natDigitsChars_of_lt n hn, hm]
    · have hn : ¬ n < 10 := by omega
      have hlt : n / 10 < f := by
        have h1 : n / 10 < n := Nat.div_lt_self (by omega) (by omega)
        omega
      simp only [Nat.toDigitsCore, hd, if_false]
      rw [ih (n / 10) (Nat.digitChar (n % 10) :: acc) hlt,
        natDigitsChars_of_ge n hn]
      simp

theorem toString_nat_data (n : Nat) :
    (toString n).data = natDigitsChars n := by
  have h : (toString n).data = Nat.toDigitsCore 10 (n + 1) n [] := rfl
  rw [h, toDigitsCore_eq_natDigitsChars (n + 1) n [] (Nat.lt_succ_self n)]
  simp

theorem digitChar_ne_dash (k : Nat) (h : k < 10) : Nat.digitChar k ≠ '-' := by
  interval_cases k <;> decide

theorem digitChar_inj_lt_ten :
    ∀ a < 10, ∀ b < 10, Nat.digitChar a = Nat.digitChar b → a = b := by
  decide

theorem natDigitsChars_ne_dash (n : Nat) :
    ∀ c ∈ natDigitsChars n, c ≠ '-' := by
  induction n using Nat.strong_induction_on with
  | _ n ih =>
    by_cases h : n < 10
    · rw [natDigitsChars_of_lt n h]
      intro c hc
      simp at hc
      subst hc
      exact digitChar_ne_dash n h
    · rw [natDigitsChars_of_ge n h]
      intro c hc
      rcases List.mem_append.mp hc with hc | hc
      · exact ih (n / 10) (Nat.div_lt_self (by omega) (by omega)) c hc
      · simp at hc
        subst hc
        exact digitChar_ne_dash (n % 10) (Nat.mod_lt n (by omega))

theorem natDigitsChars_ne_nil (n : Nat) : natDigitsChars n ≠ [] := by
  by_cases h : n < 10
  · rw [natDigitsChars_of_lt n h]; simp
  · rw [natDigitsChars_of_ge n h]; simp

theorem natDigitsChars_inj :
    ∀ m n : Nat, natDigitsChars m = natDigitsChars n → m = n := by
  intro m
  induction m using Nat.strong_induction_on with
  | _ m ih =>
    intro n h
    by_cases hm : m < 10 <;> by_cases hn : n < 10
    · rw [natDigitsChars_of_lt m hm, natDigitsChars_of_lt n hn] at h
      simp at h
      exact digitChar_inj_lt_ten m hm n hn h
    · rw [natDigitsChars_of_lt m hm, natDigitsChars_of_ge n hn] at h
      have hlen := congrArg List.length h
      simp only [List.length_append, List.length_cons, List.length_nil] at hlen
      have h0 : (natDigitsChars (n / 10)).length = 0 := by omega
      cases natDigitsChars_ne_nil (n / 10) (List.eq_nil_of_length_eq_zero h0)
    · rw [natDigitsChars_of_ge m hm, natDigitsChars_of_lt n hn] at h
      have hlen := congrArg List.length h
      simp only [List.length_append, List.length_cons, List.length_nil] at hlen
      have h0 : (natDigitsChars (m / 10)).length = 0 := by omega
      cases natDigitsChars_ne_nil (m / 10) (List.eq_nil_of_length_eq_zero h0)
    · rw [natDigitsChars_of_ge m hm, natDigitsChars_of_ge n hn] at h
      have h2 := congrArg List.reverse h
      simp at h2
      obtain ⟨hdig, hrev⟩ := h2
      have hdiv : m / 10 = n / 10 :=
        ih (m / 10) (Nat.div_lt_self (by omega) (by omega)) (n / 10) hrev
      have hmod : m % 10 = n % 10 :=
        digitChar_inj_lt_ten (m % 10) (Nat.mod_lt m (by omega))
          (n % 10) (Nat.mod_lt n (by omega)) hdig
      omega

theorem append_dash_inj :
    ∀ (t1 t2 p1 p2 : List Char), '-' ∉ t1 → '-' ∉ t2 →
      t1 ++ '-' :: p1 = t2 ++ '-' :: p2 → t1 = t2 ∧ p1 = p2 := by
  intro t1
  induction t1 with
  | nil =>
    intro t2 p1 p2 _ h2 h
    cases t2 with
    | nil => simpa using h
    | cons c cs =>
      simp at h
      exact absurd (h.1 ▸ List.mem_cons_self c cs) (h.1 ▸ h2)
  | cons c cs ih =>
    intro t2 p1 p2 h1 h2 h
    cases t2 with
    | nil =>
      simp at h
      exact absurd (h.1 ▸ List.mem_cons_self c cs) (h.1 ▸ h1)
    | cons d ds =>
      simp at h
      obtain ⟨hcd, hrest⟩ := h
      have := ih ds p1 p2 (fun hm => h1 (List.mem_cons_of_mem c hm))
        (fun hm => h2 (List.mem_cons_of_mem d hm)) hrest
      exact ⟨by rw [hcd, this.1], this.2⟩

theorem string_eq_of_data_eq {a b : String} (h : a.data = b.data) : a = b := by
  cases a; cases b; cases h; rfl

theorem saleId_inj (ts1 ts2 : Nat) (p1 p2 : String)
    (h : saleId ts1 p1 = saleId ts2 p2) : ts1 = ts2 ∧ p1 = p2 := by
  have hd := congrArg String.data h
  simp only [saleId, String.data_append, toString_nat_data] at hd
  have hd2 : natDigitsChars ts1 ++ '-' :: p1.data
      = natDigitsChars ts2 ++ '-' :: p2.data := by
    simp at hd
    exact hd
  have hsplit := append_dash_inj (natDigitsChars ts1) (natDigitsChars ts2)
    p1.data p2.data
    (fun hm => natDigitsChars_ne_dash ts1 '-' hm rfl)
    (fun hm => natDigitsChars_ne_dash ts2 '-' hm rfl)
    hd2
  exact ⟨natDigitsChars_inj ts1 ts2 hsplit.1, string_eq_of_data_eq hsplit.2⟩

/-! ## Catalog-update lemmas -/

theorem decrementFirst_map_id (item : CartItem) :
    ∀ ps : List Product,
      (decrementFirst item ps).map Product.id = ps.map Product.id := by
  intro ps
  induction ps with
  | nil => rfl
  | cons p ps ih =>
    by_cases h : p.id = item.id <;> simp [decrementFirst, h, ih]

theorem applyCart_map_id (cart : List CartItem) :
    ∀ ps : List Product,
      (applyCartToProducts cart ps).map Product.id = ps.map Product.id := by
  induction cart with
  | nil => intro ps; rfl
  | cons it rest ih =>
    intro ps
    show (applyCartToProducts rest (decrementFirst it ps)).map Product.id = _
    rw [ih (decrementFirst it ps), decrementFirst_map_id]

theorem decrementFirst_length (item : CartItem) :
    ∀ ps : List Product, (decrementFirst item ps).length = ps.length := by
  intro ps
  have := congrArg List.length (decrementFirst_map_id item ps)
  simpa using this

theorem applyCart_length (cart : List CartItem) (ps : List Product) :
    (applyCartToProducts cart ps).length = ps.length := by
  have := congrArg List.length (applyCart_map_id cart ps)
  simpa using this

theorem decrementFirst_getElem?_of_ne (item : CartItem) :
    ∀ (ps : List Product) (j : Nat) (p : Product),
      ps[j]? = some p → p.id ≠ item.id →
      (decrementFirst item ps)[j]? = some p := by
  intro ps
  induction ps with
  | nil => intro j p hj; simp at hj
  | cons q qs ih =>
    intro j p hj hne
    by_cases hq : q.id = item.id
    · simp only [decrementFirst, if_pos hq]
      cases j with
      | zero =>
        simp at hj
        subst hj
        exact absurd hq hne
      | succ k => simpa using hj
    · simp only [decrementFirst, if_neg hq]
      cases j with
      | zero => simpa using hj
      | succ k =>
        simp only [List.getElem?_cons_succ] at hj ⊢
        exact ih k p hj hne

theorem decrementFirst_getElem?_of_nodup (item : CartItem) :
    ∀ (ps : List Product) (j : Nat) (p : Product),
      (ps.map Product.id).Nodup → ps[j]? = some p →
      (decrementFirst item ps)[j]? =
        some (if p.id = item.id then
          { p with quantity := max 0 (p.quantity - item.cartQuantity) } else p) := by
  intro ps
  induction ps with
  | nil => intro j p _ hj; simp at hj
  | cons q qs ih =>
    intro j p hnd hj
    simp only [List.map_cons, List.nodup_cons] at hnd
    by_cases hq : q.id = item.id
    · simp only [decrementFirst, if_pos hq]
      cases j with
      | zero =>
        simp at hj
        subst hj
        simp [hq]
      | succ k =>
        simp only [List.getElem?_cons_succ] at hj ⊢
        have hpmem : p ∈ qs := by
          obtain ⟨hk, he⟩ := List.getElem?_eq_some.mp hj
          exact he ▸ List.getElem_mem hk
        have hpid : p.id ≠ item.id := by
          intro he
          exact hnd.1 (by
            rw [hq, ← he]
            exact List.mem_map_of_mem Product.id hpmem)
        simp [hj, hpid]
    · simp only [decrementFirst, if_neg hq]
      cases j with
      | zero =>
        simp at hj
        subst hj
        simp [hq]
      | succ k =>
        simp only [List.getElem?_cons_succ] at hj ⊢
        exact ih k p hnd.2 hj

theorem decrementFirst_getElem?_shape (item : CartItem) :
    ∀ (ps : List Product) (j : Nat) (p : Product),
      ps[j]? = some p →
      (decrementFirst item ps)[j]? = some p ∨
      (decrementFirst item ps)[j]? =
        some { p with quantity := max 0 (p.quantity - item.cartQuantity) } := by
  intro ps
  induction ps with
  | nil => intro j p hj; simp at hj
  | cons q qs ih =>
    intro j p hj
    by_cases hq : q.id = item.id
    · simp only [decrementFirst, if_pos hq]
      cases j with
      | zero =>
        simp at hj
        subst hj
        right; simp
      | succ k =>
        left; simpa using hj
    · simp only [decrementFirst, if_neg hq]
      cases j with
      | zero => left; simpa using hj
      | succ k =>
        simp only [List.getElem?_cons_succ] at hj ⊢
        exact ih k p hj

theorem decrementFirst_eq_self_of_absent (item : CartItem) :
    ∀ ps : List Product, (∀ p ∈ ps, p.id ≠ item.id) →
      decrementFirst item ps = ps := by
  intro ps
  induction ps with
  | nil => intro _; rfl
  | cons q qs ih =>
    intro h
    have hq : q.id ≠ item.id := h q (List.mem_cons_self q qs)
    simp only [decrementFirst, if_neg hq]
    rw [ih (fun p hp => h p (List.mem_cons_of_mem q hp))]

theorem applyCart_cons (it : CartItem) (rest : List CartItem)
    (ps : List Product) :
    applyCartToProducts (it :: rest) ps
      = applyCartToProducts rest (decrementFirst it ps) := rfl

theorem applyCart_getElem?_of_nodup :
    ∀ (cart : List CartItem) (ps : List Product) (j : Nat) (p : Product),
      (ps.map Product.id).Nodup →
      (cart.map (fun i => i.toProduct.id)).Nodup →
      ps[j]? = some p →
      (applyCartToProducts cart ps)[j]? =
        some (match cart.find? (fun i => i.toProduct.id == p.id) with
              | some it =>
                { p with quantity := max 0 (p.quantity - it.cartQuantity) }
              | none => p) := by
  intro cart
  induction cart with
  | nil => intro ps j p _ _ hj; simpa using hj
  | cons it rest ih =>
    intro ps j p hps hc hj
    simp only [List.map_cons, List.nodup_cons] at hc
    rw [applyCart_cons]
    have hps' : ((decrementFirst it ps).map Product.id).Nodup := by
      rw [decrementFirst_map_id]; exact hps
    have hstep := decrementFirst_getElem?_of_nodup it ps j p hps hj
    by_cases hpq : p.id = it.toProduct.id
    · rw [if_pos hpq] at hstep
      have hfind : (it :: rest).find? (fun i => i.toProduct.id == p.id)
          = some it := by
        apply List.find?_cons_of_pos
        simp [hpq]
      rw [hfind]
      have hrest : rest.find? (fun i => i.toProduct.id == p.id) = none := by
        rw [List.find?_eq_none]
        intro x hx
        simp only [beq_iff_eq]
        intro he
        exact hc.1 (by
          rw [← hpq, ← he]
          exact List.mem_map_of_mem (fun i => i.toProduct.id) hx)
      have := ih (decrementFirst it ps) j
        { p with quantity := max 0 (p.quantity - it.cartQuantity) }
        hps' hc.2 hstep
      rw [this]
      simp only []
      rw [show ({ p with quantity := max 0 (p.quantity - it.cartQuantity) } :
        Product).id = p.id from rfl, hrest]
    · rw [if_neg hpq] at hstep
      have hfind : (it :: rest).find? (fun i => i.toProduct.id == p.id)
          = rest.find? (fun i => i.toProduct.id == p.id) := by
        apply List.find?_cons_of_neg
        simp
        intro he
        exact hpq he.symm
      rw [hfind]
      exact ih (decrementFirst it ps) j p hps' hc.2 hstep

theorem applyCart_getElem?_shape :
    ∀ (cart : List CartItem) (ps : List Product) (j : Nat) (p : Product),
      ps[j]? = some p →
      ∃ q, (applyCartToProducts cart ps)[j]? = some { p with quantity := q } := by
  intro cart
  induction cart with
  | nil =>
    intro ps j p hj
    exact ⟨p.quantity, hj⟩
  | cons it rest ih =>
    intro ps j p hj
    rw [applyCart_cons]
    rcases decrementFirst_getElem?_shape it ps j p hj with hstep | hstep
    · exact ih (decrementFirst it ps) j p hstep
    · obtain ⟨q, hq⟩ := ih (decrementFirst it ps) j
        { p with quantity := max 0 (p.quantity - it.cartQuantity) } hstep
      exact ⟨q, hq⟩

theorem applyCart_getElem?_of_not_mem :
    ∀ (cart : List CartItem) (ps : List Product) (j : Nat) (p : Product),
      ps[j]? = some p →
      p.id ∉ cart.map (fun i => i.toProduct.id) →
      (applyCartToProducts cart ps)[j]? = some p := by
  intro cart
  induction cart with
  | nil => intro ps j p hj _; simpa using hj
  | cons it rest ih =>
    intro ps j p hj hmem
    simp only [List.map_cons, List.mem_cons] at hmem
    push_neg at hmem
    rw [applyCart_cons]
    exact ih (decrementFirst it ps) j p
      (decrementFirst_getElem?_of_ne it ps j p hj hmem.1) hmem.2

theorem applyCart_eq_self_of_all_absent :
    ∀ (cart : List CartItem) (ps : List Product),
      (∀ i ∈ cart, ∀ p ∈ ps, p.id ≠ i.toProduct.id) →
      applyCartToProducts cart ps = ps := by
  intro cart
  induction cart with
  | nil => intro ps _; rfl
  | cons it rest ih =>
    intro ps h
    rw [applyCart_cons,
      decrementFirst_eq_self_of_absent it ps
        (fun p hp => h it (List.mem_cons_self it rest) p hp)]
    exact ih ps (fun i hi p hp => h i (List.mem_cons_of_mem it hi) p hp)

/-! ## Aggregate lemmas -/

theorem foldl_add_eq {M : Type} [AddCommMonoid M] (f : SaleRecord → M) :
    ∀ (l : List SaleRecord) (a : M),
      l.foldl (fun acc s => acc + f s) a = a + (l.map f).sum := by
  intro l
  induction l with
  | nil => intro a; simp
  | cons s ss ih => intro a; simp [ih, add_assoc]

theorem totalRevenue_append (x y : List SaleRecord) :
    totalRevenue (x ++ y) = totalRevenue x + totalRevenue y := by
  simp [totalRevenue, foldl_add_eq, add_assoc]

theorem totalProfit_append (x y : List SaleRecord) :
    totalProfit (x ++ y) = totalProfit x + totalProfit y := by
  simp [totalProfit, foldl_add_eq, add_assoc]

theorem totalItemsSold_append (x y : List SaleRecord) :
    totalItemsSold (x ++ y) = totalItemsSold x + totalItemsSold y := by
  simp [totalItemsSold, foldl_add_eq, add_assoc]

theorem filterSales_append (sel : String) (x y : List SaleRecord) :
    filterSales sel (x ++ y) = filterSales sel x ++ filterSales sel y := by
  unfold filterSales
  split
  · rfl
  · exact List.filter_append x y

theorem revenueFor_cons (e : String × Rat) (m : List (String × Rat))
    (n : String) :
    revenueFor (e :: m) n
      = (if e.1 = n then e.2 else 0) + revenueFor m n := by
  unfold revenueFor
  by_cases h : e.1 = n <;> simp [List.filter_cons, h]

theorem revenueFor_append (a b : List (String × Rat)) (n : String) :
    revenueFor (a ++ b) n = revenueFor a n + revenueFor b n := by
  unfold revenueFor
  rw [List.filter_append, List.map_append, List.sum_append]

theorem map_update_eq_self (pn : String) (rev : Rat) :
    ∀ es : List (String × Rat), (∀ x ∈ es, x.1 ≠ pn) →
      es.map (fun e => if e.1 = pn then (e.1, e.2 + rev) else e) = es := by
  intro es
  induction es with
  | nil => intro _; rfl
  | cons e es ih =>
    intro h
    have he : e.1 ≠ pn := h e (List.mem_cons_self e es)
    simp only [List.map_cons, if_neg he]
    rw [ih (fun x hx => h x (List.mem_cons_of_mem e hx))]

theorem revenueFor_update (pn : String) (rev : Rat) :
    ∀ (m : List (String × Rat)), (m.map Prod.fst).Nodup →
      pn ∈ m.map Prod.fst → ∀ n,
      revenueFor (m.map (fun e => if e.1 = pn then (e.1, e.2 + rev) else e)) n
        = revenueFor m n + (if pn = n then rev else 0) := by
  intro m
  induction m with
  | nil => intro _ hmem; simp at hmem
  | cons e es ih =>
    intro hnd hmem n
    simp only [List.map_cons, List.nodup_cons] at hnd
    by_cases he : e.1 = pn
    · have hes : ∀ x ∈ es, x.1 ≠ pn := by
        intro x hx hxe
        exact hnd.1 (by rw [he, ← hxe]; exact List.mem_map_of_mem Prod.fst hx)
      simp only [List.map_cons, if_pos he]
      rw [map_update_eq_self pn rev es hes, revenueFor_cons, revenueFor_cons]
      by_cases hn : e.1 = n
      · rw [if_pos hn, if_pos hn, if_pos (he ▸ hn)]
        ring
      · rw [if_neg hn, if_neg hn, if_neg (by rw [← he] at *; exact hn)]
        ring
    · have hmem' : pn ∈ es.map Prod.fst := by
        rcases List.mem_cons.mp hmem with h | h
        · exact absurd h.symm he
        · exact h
      simp only [List.map_cons, if_neg he]
      rw [revenueFor_cons, revenueFor_cons, ih hnd.2 hmem' n]
      ring

theorem contains_iff_mem_keys (m : List (String × Rat)) (x : String) :
    (m.map Prod.fst).contains x = true ↔ x ∈ m.map Prod.fst := by
  simp [List.contains_iff_exists_mem_beq, beq_iff_eq, eq_comm]

theorem revenueFor_accumByName (m : List (String × Rat)) (s : SaleRecord)
    (n : String) (h : (m.map Prod.fst).Nodup) :
    revenueFor (accumByName m s) n
      = revenueFor m n + (if s.productName = n then s.revenue else 0) := by
  unfold accumByName
  by_cases hc : (m.map Prod.fst).contains s.productName = true
  · rw [if_pos hc]
    exact revenueFor_update s.productName s.revenue m h
      ((contains_iff_mem_keys m s.productName).mp hc) n
  · rw [if_neg hc, revenueFor_append, revenueFor_cons]
    simp [revenueFor]

theorem keys_accumByName_nodup (m : List (String × Rat)) (s : SaleRecord)
    (h : (m.map Prod.fst).Nodup) :
    ((accumByName m s).map Prod.fst).Nodup := by
  unfold accumByName
  by_cases hc : (m.map Prod.fst).contains s.productName = true
  · rw [if_pos hc]
    have hkeys : (m.map (fun e =>
        if e.1 = s.productName then (e.1, e.2 + s.revenue) else e)).map Prod.fst
        = m.map Prod.fst := by
      rw [List.map_map]
      apply List.map_congr_left
      intro e _
      by_cases he : e.1 = s.productName <;> simp [he]
    rw [hkeys]
    exact h
  · rw [if_neg hc, List.map_append]
    have hnm : s.productName ∉ m.map Prod.fst := by
      intro hm
      exact hc ((contains_iff_mem_keys m s.productName).mpr hm)
    simp [List.nodup_append, h, hnm]

theorem revenueFor_foldl (n : String) :
    ∀ (l : List SaleRecord) (m : List (String × Rat)),
      (m.map Prod.fst).Nodup →
      revenueFor (l.foldl accumByName m) n
        = revenueFor m n
          + (l.map (fun s => if s.productName = n then s.revenue else 0)).sum := by
  intro l
  induction l with
  | nil => intro m _; simp
  | cons s ss ih =>
    intro m hm
    simp only [List.foldl_cons, List.map_cons, List.sum_cons]
    rw [ih (accumByName m s) (keys_accumByName_nodup m s hm),
      revenueFor_accumByName m s n hm]
    ring

theorem revenueFor_salesByProduct (l : List SaleRecord) (n : String) :
    revenueFor (salesByProduct l) n
      = (l.map (fun s => if s.productName = n then s.revenue else 0)).sum := by
  have h := revenueFor_foldl n l [] (by simp)
  simpa [salesByProduct, revenueFor] using h

theorem revenueFor_salesByProduct_append (x y : List SaleRecord) (n : String) :
    revenueFor (salesByProduct (x ++ y)) n
      = revenueFor (salesByProduct x) n + revenueFor (salesByProduct y) n := by
  simp [revenueFor_salesByProduct]

/-! ## Sortedness lemmas for the snapshot -/

theorem insertByTsDesc_of_forall_le (s : SaleRecord) (l : List SaleRecord)
    (h : ∀ t ∈ l, t.timestamp ≤ s.timestamp) :
    insertByTsDesc s l = s :: l := by
  cases l with
  | nil => rfl
  | cons t ts =>
    unfold insertByTsDesc
    rw [if_pos (h t (List.mem_cons_self t ts))]

theorem sortByTimestampDesc_eq_self (l : List SaleRecord)
    (h : l.Pairwise (fun a b => b.timestamp ≤ a.timestamp)) :
    sortByTimestampDesc l = l := by
  induction l with
  | nil => rfl
  | cons s ss ih =>
    rw [List.pairwise_cons] at h
    unfold sortByTimestampDesc
    rw [ih h.2]
    exact insertByTsDesc_of_forall_le s ss h.1

/-! ## Checkout-sequence aggregate lemma -/

theorem runCheckouts_aggregate {M : Type} [AddCommMonoid M]
    (A : List SaleRecord → M)
    (hA : ∀ x y, A (x ++ y) = A x + A y) :
    ∀ (cs : List Checkout) (st : AppState),
      A (runCheckouts st cs).sales
        = A st.sales
          + (cs.map (fun c => A (newSalesOf c.timestamp c.method c.cart))).sum := by
  intro cs
  induction cs with
  | nil => intro st; simp [runCheckouts]
  | cons c cs ih =>
    intro st
    show A (runCheckouts (handleCustomerPurchase c.timestamp c.cart c.method st) cs).sales = _
    rw [ih]
    have hs : (handleCustomerPurchase c.timestamp c.cart c.method st).sales
        = newSalesOf c.timestamp c.method c.cart ++ st.sales := rfl
    rw [hs, hA]
    simp [add_assoc, add_left_comm, add_comm]

/-! ## Claim theorems -/

/-- C1: for every checkout of a non-empty cart, the records appended to the
ledger are exactly `newSalesOf` (built from the cart snapshot alone, never
from the live catalog), the sum of their revenue fields equals the sum over
cart lines of `price * cartQuantity`, and the sum of their profit fields
equals the sum over cart lines of `(price - cost) * cartQuantity`, with
price and cost read from the cart item. -/
theorem c1_checkout_revenue_profit_sums (ts : Nat) (method : PaymentMethod)
    (cart : List CartItem) (st : AppState) (hne : cart ≠ []) :
    (handleCustomerPurchase ts cart method st).sales
      = newSalesOf ts method cart ++ st.sales ∧
    ((newSalesOf ts method cart).map SaleRecord.revenue).sum
      = (cart.map (fun i => i.price * (i.cartQuantity : Rat))).sum ∧
    ((newSalesOf ts method cart).map SaleRecord.profit).sum
      = (cart.map (fun i => (i.price - i.cost) * (i.cartQuantity : Rat))).sum := by
  refine ⟨rfl, ?_, ?_⟩
  · rw [newSalesOf, List.map_map]
    rfl
  · rw [newSalesOf, List.map_map]
    rfl

/-- C1 witness: the spec example — price 2.50, cost 0.80, cartQuantity 3 give
revenue 7.50 and profit 5.10. -/
theorem c1_checkout_revenue_profit_sums_witness :
    ([sampleItem] : List CartItem) ≠ [] ∧
    ((newSalesOf 100 PaymentMethod.cash [sampleItem]).map SaleRecord.revenue).sum
      = 15/2 ∧
    ((newSalesOf 100 PaymentMethod.cash [sampleItem]).map SaleRecord.profit).sum
      = 51/10 := by
  have h := c1_checkout_revenue_profit_sums 100 PaymentMethod.cash [sampleItem]
    sampleState (by simp)
  refine ⟨by simp, ?_, ?_⟩
  · rw [h.2.1]; norm_num [sampleItem, sampleProduct]
  · rw [h.2.2]; norm_num [sampleItem, sampleProduct]

/-- C2: for every checkout over a catalog with distinct product ids and a cart
with distinct line ids, the post-checkout entry at each catalog position is
the clamped decrement `max 0 (quantity - cartQuantity)` when a cart line
matches the product id and the unchanged product otherwise; the clamped
quantity is never negative, even when the cart exceeds available stock. -/
theorem c2_post_quantity_clamped (ts : Nat) (method : PaymentMethod)
    (cart : List CartItem) (st : AppState)
    (hp : (st.products.map Product.id).Nodup)
    (hc : (cart.map (fun i => i.toProduct.id)).Nodup)
    (j : Nat) (p : Product) (hj : st.products[j]? = some p) :
    (handleCustomerPurchase ts cart method st).products[j]? =
      some (match cart.find? (fun i => i.toProduct.id == p.id) with
            | some it => { p with quantity := max 0 (p.quantity - it.cartQuantity) }
            | none => p) ∧
    ∀ it, cart.find? (fun i => i.toProduct.id == p.id) = some it →
      ∀ q, (handleCustomerPurchase ts cart method st).products[j]? = some q →
        q.quantity = max 0 (p.quantity - it.cartQuantity) ∧ 0 ≤ q.quantity := by
  have h1 := applyCart_getElem?_of_nodup cart st.products j p hp hc hj
  refine ⟨h1, ?_⟩
  intro it hit q hq
  rw [hit] at h1
  have hq' : (applyCartToProducts cart st.products)[j]? = some q := hq
  rw [h1] at hq'
  have hq2 := Option.some.inj hq'
  rw [← hq2]
  exact ⟨rfl, le_max_left 0 _⟩

/-- C2 witness: the spec example — product stocked at 2, cart requesting 5,
resulting quantity clamps to 0, not -3. -/
theorem c2_post_quantity_clamped_witness :
    (handleCustomerPurchase 100 [overItem] PaymentMethod.cash
      overState).products[0]? = some { overItem.toProduct with quantity := 0 } := by
  have h := (c2_post_quantity_clamped 100 PaymentMethod.cash [overItem]
    overState (by decide) (by decide) 0 overItem.toProduct (by decide)).1
  rw [h]
  decide

/-- C9 (implicit): a cart line whose product id is absent from the catalog
still yields its full sale record (price, cost, name captured on the cart
item), its inventory step is a no-op on any catalog with those ids, and a
checkout whose lines are all dangling leaves the catalog unchanged; the
checkout is a total function, so it never fails. -/
theorem c9_dangling_reference (ts : Nat) (method : PaymentMethod)
    (st : AppState) (cart : List CartItem) (item : CartItem)
    (hmem : item ∈ cart)
    (habs : item.toProduct.id ∉ st.products.map Product.id) :
    mkSaleRecord ts method item
        ∈ (handleCustomerPurchase ts cart method st).sales ∧
    (mkSaleRecord ts method item).productName = item.toProduct.name ∧
    (mkSaleRecord ts method item).revenue
      = item.toProduct.price * (item.cartQuantity : Rat) ∧
    (mkSaleRecord ts method item).profit
      = (item.toProduct.price - item.toProduct.cost) * (item.cartQuantity : Rat) ∧
    (mkSaleRecord ts method item).quantity = item.cartQuantity ∧
    (∀ ps : List Product, ps.map Product.id = st.products.map Product.id →
      decrementFirst item ps = ps) ∧
    ((∀ i ∈ cart, i.toProduct.id ∉ st.products.map Product.id) →
      (handleCustomerPurchase ts cart method st).products = st.products) := by
  refine ⟨?_, rfl, rfl, rfl, rfl, ?_, ?_⟩
  · exact List.mem_append_left st.sales
      (List.mem_map_of_mem (mkSaleRecord ts method) hmem)
  · intro ps hps
    apply decrementFirst_eq_self_of_absent
    intro p hp he
    apply habs
    rw [← he, ← hps]
    exact List.mem_map_of_mem Product.id hp
  · intro hall
    show applyCartToProducts cart st.products = st.products
    apply applyCart_eq_self_of_all_absent
    intro i hi p hp he
    exact hall i hi (he ▸ List.mem_map_of_mem Product.id hp)

/-- C9 witness: a single dangling line (product id `px` absent from the
catalog) produces its sale record and leaves the catalog untouched. -/
theorem c9_dangling_reference_witness :
    mkSaleRecord 100 PaymentMethod.cash danglingItem
        ∈ (handleCustomerPurchase 100 [danglingItem] PaymentMethod.cash
          sampleState).sales ∧
    (handleCustomerPurchase 100 [danglingItem] PaymentMethod.cash
      sampleState).products = sampleState.products := by
  have h := c9_dangling_reference 100 PaymentMethod.cash sampleState
    [danglingItem] danglingItem (by simp) (by decide)
  exact ⟨h.1, h.2.2.2.2.2.2 (by decide)⟩

/-- C10 (implicit): checkout is frame-preserving on the catalog — every
position keeps its product with at most the quantity field changed, a product
whose id is in no cart line is wholly unchanged, and the catalog length is
preserved. -/
theorem c10_checkout_frame (ts : Nat) (method : PaymentMethod)
    (cart : List CartItem) (st : AppState) (j : Nat) (p : Product)
    (hj : st.products[j]? = some p) :
    (∃ q, (handleCustomerPurchase ts cart method st).products[j]?
      = some { p with quantity := q }) ∧
    (p.id ∉ cart.map (fun i => i.toProduct.id) →
      (handleCustomerPurchase ts cart method st).products[j]? = some p) ∧
    (handleCustomerPurchase ts cart method st).products.length
      = st.products.length := by
  exact ⟨applyCart_getElem?_shape cart st.products j p hj,
    fun h => applyCart_getElem?_of_not_mem cart st.products j p hj h,
    applyCart_length cart st.products⟩

/-- C10 witness: a checkout whose only line references id `px` leaves the
catalog entry for `p1` exactly as it was. -/
theorem c10_checkout_frame_witness :
    (handleCustomerPurchase 100 [danglingItem] PaymentMethod.cash
      sampleState).products[0]? = some sampleProduct := by
  have h := c10_checkout_frame 100 PaymentMethod.cash [danglingItem]
    sampleState 0 sampleProduct rfl
  exact h.2.1 (by decide)

/-- C3 counterexample: two checkouts issued at the same millisecond
(`Date.now()` has millisecond resolution, so repeated values are possible)
selling the same product produce two ledger records with the same id
`s-100-p2`, so emitted ids are not unique across the whole ledger. -/
theorem c3_counterexample :
    ¬ (((handleCustomerPurchase 100 [overItem] PaymentMethod.cash
        (handleCustomerPurchase 100 [overItem] PaymentMethod.cash
          overState)).sales.map SaleRecord.id).Nodup) := by
  decide

/-- C3 amended: each checkout emits exactly one record per cart line in cart
order, every record of one checkout carries the checkout timestamp and the id
`s-(timestamp)-(productId)`; ids are distinct within a checkout when the cart
lines reference distinct products, and records of checkouts with different
timestamps never share an id — but two checkouts sharing a timestamp and a
product collide, so uniqueness across the whole ledger is conditional, not
absolute. -/
theorem c3_one_record_per_line_ids (ts : Nat) (method : PaymentMethod)
    (cart : List CartItem) :
    (newSalesOf ts method cart).length = cart.length ∧
    (∀ j : Nat, (newSalesOf ts method cart)[j]?
      = (cart[j]?).map (mkSaleRecord ts method)) ∧
    (∀ r ∈ newSalesOf ts method cart,
      r.timestamp = ts ∧ r.id = saleId ts r.productId) ∧
    ((cart.map (fun i => i.toProduct.id)).Nodup →
      ((newSalesOf ts method cart).map SaleRecord.id).Nodup) ∧
    (∀ (ts2 : Nat) (m2 : PaymentMethod) (c2 : List CartItem), ts ≠ ts2 →
      ∀ r1 ∈ newSalesOf ts method cart, ∀ r2 ∈ newSalesOf ts2 m2 c2,
        r1.id ≠ r2.id) := by
  refine ⟨List.length_map cart _, ?_, ?_, ?_, ?_⟩
  · intro j
    exact List.getElem?_map (mkSaleRecord ts method) cart j
  · intro r hr
    obtain ⟨i, _, hi⟩ := List.mem_map.mp hr
    rw [← hi]
    exact ⟨rfl, rfl⟩
  · intro hc
    have hids : (newSalesOf ts method cart).map SaleRecord.id
        = (cart.map (fun i => i.toProduct.id)).map (saleId ts) := by
      rw [newSalesOf, List.map_map, List.map_map]
      rfl
    rw [hids]
    exact hc.map (fun a b h => (saleId_inj ts ts a b h).2)
  · intro ts2 m2 c2 hts r1 hr1 r2 hr2 hid
    obtain ⟨i1, _, hi1⟩ := List.mem_map.mp hr1
    obtain ⟨i2, _, hi2⟩ := List.mem_map.mp hr2
    rw [← hi1, ← hi2] at hid
    exact hts (saleId_inj ts ts2 i1.toProduct.id i2.toProduct.id hid).1

/-- C3 witness: concrete instance — one line gives one record with the
checkout timestamp; distinct cart ids give distinct record ids; checkouts at
timestamps 100 and 101 with the same product give distinct ids. -/
theorem c3_one_record_per_line_ids_witness :
    (newSalesOf 100 PaymentMethod.cash [overItem]).length = 1 ∧
    ((newSalesOf 100 PaymentMethod.cash [overItem]).map SaleRecord.id).Nodup ∧
    (mkSaleRecord 100 PaymentMethod.cash overItem).id
      ≠ (mkSaleRecord 101 PaymentMethod.cash overItem).id := by
  have h := c3_one_record_per_line_ids 100 PaymentMethod.cash [overItem]
  refine ⟨h.1, h.2.2.2.1 (by decide), ?_⟩
  exact h.2.2.2.2 101 PaymentMethod.cash [overItem] (by decide)
    (mkSaleRecord 100 PaymentMethod.cash overItem) (by simp [newSalesOf])
    (mkSaleRecord 101 PaymentMethod.cash overItem) (by simp [newSalesOf])

/-- C4 counterexample: a product expiring exactly seven days from now
(`expiryDate = now + 7 days`, evaluated at `now = 0`) is near-expiry under
the spec predicate (`now <= expiryDate <= now + 7 days`) but is classified as
neither expired nor near-expiry by the `Inventory.tsx` row predicates, whose
near-expiry bound is strict. -/
theorem c4_counterexample :
    isExpired 0 boundaryProduct = false ∧
    isNearExpiry 0 boundaryProduct = false ∧
    specNearExpiry 0 boundaryProduct = true := by
  decide

/-- C4 amended: at any single instant the classes are mutually exclusive for
both predicate families (so each product is in exactly one of expired,
near-expiry, neither); the assistant filters match the spec definitions
exactly (for truthy expiry dates), while the inventory-row near-expiry
predicate uses the strict bound `expiryDate < now + 7 days`, excluding the
upper boundary; products without a (nonzero) expiry date fall in neither
class. -/
theorem c4_expiry_partition (now : Int) (p : Product) :
    (¬ (isExpired now p = true ∧ isNearExpiry now p = true)) ∧
    (isExpired now p = true ↔
      ∃ d, p.expiryDate = some d ∧ d ≠ 0 ∧ d < now) ∧
    (isNearExpiry now p = true ↔
      ∃ d, p.expiryDate = some d ∧ d ≠ 0 ∧ now ≤ d ∧ d < now + weekMs) ∧
    (expiredFilter now p = isExpired now p) ∧
    (¬ (expiredFilter now p = true ∧ nearExpiryFilter now p = true)) ∧
    (nearExpiryFilter now p = true ↔
      ∃ d, p.expiryDate = some d ∧ d ≠ 0 ∧ now ≤ d ∧ d ≤ now + weekMs) := by
  rcases hp : p.expiryDate with _ | d
  · refine ⟨?_, ?_, ?_, ?_, ?_, ?_⟩ <;>
      simp [isExpired, isNearExpiry, expiredFilter, nearExpiryFilter, hp]
  · refine ⟨?_, ?_, ?_, ?_, ?_, ?_⟩ <;>
      simp [isExpired, isNearExpiry, expiredFilter, nearExpiryFilter, hp] <;>
      omega

/-- C5 counterexample: the snapshot is the positional prefix
`sales.slice(0, 50)`, not a timestamp selection — on a ledger stored
oldest-first the snapshot keeps stored order (older sale first), so it is not
ordered newest-first by timestamp and differs from the most-recent-first
selection the claim describes. -/
theorem c5_counterexample :
    recentSalesSnapshot [oldSale, newSale] = [oldSale, newSale] ∧
    oldSale.timestamp < newSale.timestamp ∧
    recentSalesSnapshot [oldSale, newSale]
      ≠ specMostRecentSales 50 [oldSale, newSale] := by
  refine ⟨rfl, by decide, ?_⟩
  intro h
  have h0 := congrArg (fun l => (l.map SaleRecord.id)) h
  simp [recentSalesSnapshot, specMostRecentSales, sortByTimestampDesc,
    insertByTsDesc, oldSale, newSale] at h0

/-- C5 amended: provided the ledger is ordered newest-first by timestamp
(the invariant the app maintains by prepending each checkout's records), the
snapshot `slice(0, 50)` equals the `min(50, length)` most recent sales
ordered newest-first by timestamp. -/
theorem c5_snapshot_most_recent (sales : List SaleRecord)
    (hs : sales.Pairwise (fun a b => b.timestamp ≤ a.timestamp)) :
    recentSalesSnapshot sales = specMostRecentSales 50 sales ∧
    (recentSalesSnapshot sales).length = min 50 sales.length ∧
    (recentSalesSnapshot sales).Pairwise
      (fun a b => b.timestamp ≤ a.timestamp) := by
  refine ⟨?_, ?_, ?_⟩
  · unfold recentSalesSnapshot specMostRecentSales
    rw [sortByTimestampDesc_eq_self sales hs]
  · simp [recentSalesSnapshot]
  · exact List.Pairwise.sublist (List.take_sublist 50 sales) hs

/-- C5 witness: on the two-record ledger stored newest-first the snapshot is
exactly the most-recent-first selection and has length `min 50 2`. -/
theorem c5_snapshot_most_recent_witness :
    recentSalesSnapshot [newSale, oldSale]
      = specMostRecentSales 50 [newSale, oldSale] ∧
    (recentSalesSnapshot [newSale, oldSale]).length = min 50 2 := by
  have h := c5_snapshot_most_recent [newSale, oldSale] (by decide)
  exact ⟨h.1, h.2.1⟩

/-- C6: ledger aggregation is additive over appended checkouts — after any
sequence of checkouts, total revenue, total profit, total units sold and the
per-product-name revenue totals (under any machine filter) equal the
pre-existing aggregates plus the sum of the independent single-checkout
aggregates. -/
theorem c6_aggregate_additive (sel : String) (st : AppState)
    (cs : List Checkout) :
    totalRevenue (filterSales sel (runCheckouts st cs).sales)
      = totalRevenue (filterSales sel st.sales)
        + (cs.map (fun c =>
            totalRevenue (filterSales sel
              (newSalesOf c.timestamp c.method c.cart)))).sum ∧
    totalProfit (filterSales sel (runCheckouts st cs).sales)
      = totalProfit (filterSales sel st.sales)
        + (cs.map (fun c =>
            totalProfit (filterSales sel
              (newSalesOf c.timestamp c.method c.cart)))).sum ∧
    totalItemsSold (filterSales sel (runCheckouts st cs).sales)
      = totalItemsSold (filterSales sel st.sales)
        + (cs.map (fun c =>
            totalItemsSold (filterSales sel
              (newSalesOf c.timestamp c.method c.cart)))).sum ∧
    ∀ name,
      revenueFor (salesByProduct
          (filterSales sel (runCheckouts st cs).sales)) name
        = revenueFor (salesByProduct (filterSales sel st.sales)) name
          + (cs.map (fun c =>
              revenueFor (salesByProduct (filterSales sel
                (newSalesOf c.timestamp c.method c.cart))) name)).sum := by
  refine ⟨?_, ?_, ?_, ?_⟩
  · exact runCheckouts_aggregate (fun l => totalRevenue (filterSales sel l))
      (fun x y => by simp only [filterSales_append, totalRevenue_append]) cs st
  · exact runCheckouts_aggregate (fun l => totalProfit (filterSales sel l))
      (fun x y => by simp only [filterSales_append, totalProfit_append]) cs st
  · exact runCheckouts_aggregate (fun l => totalItemsSold (filterSales sel l))
      (fun x y => by simp only [filterSales_append, totalItemsSold_append]) cs st
  · intro name
    exact runCheckouts_aggregate
      (fun l => revenueFor (salesByProduct (filterSales sel l)) name)
      (fun x y => by
        simp only [filterSales_append, revenueFor_salesByProduct_append]) cs st

/-- C7: every advisory-oracle adapter operation degrades every failure
outcome (thrown exception, missing or empty payload, schema-mismatched
response) to a defined failure value or descriptive fallback text, and is a
total function of the outcome, so no failure escapes the adapter. -/
theorem c7_adapter_degrades :
    generateBusinessInsight OracleOutcome.thrown
      = "Sorry, I encountered an error analyzing your business data." ∧
    generateBusinessInsight (OracleOutcome.ok none)
      = "I couldn\x27t analyze the data at this moment." ∧
    generateBusinessInsight (OracleOutcome.ok (some ""))
      = "I couldn\x27t analyze the data at this moment." ∧
    (∀ tts, chatWithAgent ChatOutcome.thrown tts
      = { text := "I\x27m having trouble connecting to the VendNexus network.",
          audio := none }) ∧
    generateSpeechFromText TtsOutcome.thrown = none ∧
    generateSpeechFromText (TtsOutcome.ok none) = none ∧
    suggestOptimalPrice PriceOracleOutcome.malformed = none ∧
    suggestOptimalPrice PriceOracleOutcome.thrown = none ∧
    (∀ o, suggestOptimalPrice o = none
      ∨ ∃ r, suggestOptimalPrice o = some r) := by
  refine ⟨rfl, rfl, by decide, fun tts => rfl, rfl, rfl, rfl, rfl, ?_⟩
  intro o
  cases o with
  | wellFormed sp r => exact Or.inr ⟨⟨sp, r⟩, rfl⟩
  | malformed => exact Or.inl rfl
  | thrown => exact Or.inl rfl

/-- C8 counterexample: after request-sent followed by error-received the
popup is in the Failed configuration (open, not loading, failure reasoning),
and the apply action is available there — contradicting the claim that only
Ready permits apply. -/
theorem c8_counterexample :
    (psStep (psStep initialPriceSuggestion
      (PsEvent.requestSent sampleProduct)) PsEvent.errorReceived).isOpen
        = true ∧
    (psStep (psStep initialPriceSuggestion
      (PsEvent.requestSent sampleProduct)) PsEvent.errorReceived).isLoading
        = false ∧
    (psStep (psStep initialPriceSuggestion
      (PsEvent.requestSent sampleProduct)) PsEvent.errorReceived).reasoning
        = "Failed to generate suggestion." ∧
    applyActionAvailable (psStep (psStep initialPriceSuggestion
      (PsEvent.requestSent sampleProduct)) PsEvent.errorReceived) = true := by
  exact ⟨rfl, rfl, rfl, rfl⟩

/-- C8 amended: the popup follows Idle to Loading on request-sent, Loading to
Ready on response-received and Loading to Failed on error-received; dismissal
from any state closes the popup (Idle); the apply action is rendered exactly
when the popup is open and not loading — so it is available in Ready and
also in Failed, and unavailable in Idle and Loading. -/
theorem c8_popup_state_machine :
    (∀ s p, psStep s (PsEvent.requestSent p)
      = { isOpen := true, product := some p, suggestedPrice := 0,
          reasoning := "", isLoading := true }) ∧
    (∀ s p sp r, psStep s (PsEvent.responseReceived p sp r)
      = { isOpen := true, product := some p, suggestedPrice := sp,
          reasoning := r, isLoading := false }) ∧
    (∀ s, (psStep s PsEvent.errorReceived).isOpen = s.isOpen ∧
      (psStep s PsEvent.errorReceived).isLoading = false ∧
      (psStep s PsEvent.errorReceived).reasoning
        = "Failed to generate suggestion.") ∧
    (∀ s, (psStep s PsEvent.dismiss).isOpen = false) ∧
    (∀ s, applyActionAvailable s = (s.isOpen && !s.isLoading)) ∧
    (∀ s p, applyActionAvailable (psStep s (PsEvent.requestSent p)) = false) ∧
    (∀ s p sp r,
      applyActionAvailable (psStep s (PsEvent.responseReceived p sp r))
        = true) ∧
    (∀ s, applyActionAvailable (psStep s PsEvent.dismiss) = false) ∧
    (applyActionAvailable initialPriceSuggestion = false) ∧
    (∀ s, s.isOpen = true → s.isLoading = true →
      applyActionAvailable (psStep s PsEvent.errorReceived) = true) := by
  refine ⟨fun s p => rfl, fun s p sp r => rfl, fun s => ⟨rfl, rfl, rfl⟩,
    fun s => rfl, fun s => rfl, fun s p => rfl, fun s p sp r => rfl,
    ?_, rfl, ?_⟩
  · intro s
    simp [applyActionAvailable, psStep]
  · intro s hopen _
    simp [applyActionAvailable, psStep, hopen]

/-- C8 witness: instantiating the amended theorem at the Loading state
reached by request-sent shows the apply action available after
error-received. -/
theorem c8_popup_state_machine_witness :
    applyActionAvailable (psStep (psStep initialPriceSuggestion
      (PsEvent.requestSent boundaryProduct)) PsEvent.errorReceived) = true := by
  exact c8_popup_state_machine.2.2.2.2.2.2.2.2.2
    (psStep initialPriceSuggestion (PsEvent.requestSent boundaryProduct))
    rfl rfl
